import Mathlib

/-!
Shallow embedding of `src/platforms/gametime.ts` (the whole logic of the repository):
a polling tick that fetches a listings document, validates it, filters and
ranks listings, tracks a price history, and gates a push notification.

External collaborators (the HTTP fetch, the zod `safeParse` outcome, the
notifier, the wall clock, and locale currency formatting) are modelled as
inputs: a tick receives the outcome of the fetch/parse as a `TickInput`, the
current `Date.now()` value as an integer millisecond timestamp, and the
configuration carries the (pure) pattern predicates and the currency
formatter.  Money amounts are modelled as exact rationals `ℚ`; the JS doubles of the
source are exact on the cent-sized integers involved and `allIn / 100`
is a rational division.
-/

namespace Gametime

/-- The `price` sub-object of a listing (minor currency units, e.g. cents);
mirrors the zod `listingObj` price schema. -/
structure Price where
  face_value : Option ℚ
  prefee : ℚ
  total : ℚ
  sales_tax : ℚ
deriving DecidableEq

/-- One listing, mirroring the zod `listingObj` fields kept by the schema. -/
structure Listing where
  price : Price
  lots : List ℕ
  seats : List String
  id : String
  row : String
  «section» : String
  section_group : String
deriving DecidableEq

/-- The configuration constants at the top of `gametime.ts`.  The regex
lists are modelled as lists of boolean predicates on strings (the `test`
method of a compiled regex).  `sectionGroupNamesDisplay` models the
comma-join of `SECTION_GROUP_NAMES` used in the header, and `fmtPrice` models
the locale currency formatter `fmtPrice` (external runtime behaviour). -/
structure Config where
  PLATFORM_NAME : String
  EVENT_NAME : String
  SEATS_TOGETHER : ℕ
  MAX_ALL_IN_PRICE_PER_SEAT : ℚ
  SECTIONS_REGEX : List (String → Bool)
  SECTION_GROUP_NAMES : List (String → Bool)
  sectionGroupNamesDisplay : String
  MAX_RETURN_LIST : ℕ
  MIN_ERROR_COUNT : ℕ
  TEXT_MAX_FREQUENCY_MINS : ℕ
  fmtPrice : ℚ → String

/-- The module-level mutable state of `gametime.ts`:
`pricesSeen`, `AVAILABLE_SEATS`, `LAST_TEXT_SENT_AT`, `ERROR_COUNT`,
`ERROR`, `STATUS_MESSAGE`. -/
structure RunState where
  pricesSeen : List ℚ
  AVAILABLE_SEATS : List Listing
  LAST_TEXT_SENT_AT : ℤ
  ERROR_COUNT : ℕ
  ERROR : Bool
  STATUS_MESSAGE : String
deriving DecidableEq

/-- The initial values of the module-level variables. -/
def initialState : RunState :=
  { pricesSeen := []
    AVAILABLE_SEATS := []
    LAST_TEXT_SENT_AT := 0
    ERROR_COUNT := 0
    ERROR := false
    STATUS_MESSAGE := "NO_SEATS" }

/-- The accessor `getStatusMessage`, returning ERROR when the flag is set
and the status message otherwise. -/
def getStatusMessage (s : RunState) : String :=
  if s.ERROR then "ERROR" else s.STATUS_MESSAGE

/-- `calculateTotalPrice`: `(prefee + total + sales_tax) / 100`,
minor units converted to major units. -/
def calculateTotalPrice (l : Listing) : ℚ :=
  (l.price.prefee + l.price.total + l.price.sales_tax) / 100

/-- The comparison relation of the sort comparator
`(a, b) => calculateTotalPrice(a) - calculateTotalPrice(b)`:
`a` may come no later than `b` iff its total price is `≤` that of `b`. -/
def priceLe (a b : Listing) : Prop :=
  calculateTotalPrice a ≤ calculateTotalPrice b

instance : DecidableRel priceLe := fun a b =>
  inferInstanceAs (Decidable (calculateTotalPrice a ≤ calculateTotalPrice b))

instance : IsTotal Listing priceLe :=
  ⟨fun a b => le_total (calculateTotalPrice a) (calculateTotalPrice b)⟩

instance : IsTrans Listing priceLe :=
  ⟨fun _ _ _ => le_trans⟩

/-- The `.filter` predicate of `check` (lines 106–125): at least
`SEATS_TOGETHER` seats, `SEATS_TOGETHER` offered as a lot, section or
section-group pattern match, and all-in price per seat not above the cap. -/
def passesFilter (cfg : Config) (l : Listing) : Bool :=
  if l.seats.length < cfg.SEATS_TOGETHER then false
  else if cfg.SEATS_TOGETHER ∉ l.lots then false
  else if ¬ (cfg.SECTIONS_REGEX.any fun r => r l.«section») ∧
          ¬ (cfg.SECTION_GROUP_NAMES.any fun r => r l.section_group) then false
  else if calculateTotalPrice l > cfg.MAX_ALL_IN_PRICE_PER_SEAT then false
  else true

/-- The whole `AVAILABLE_SEATS` computation: `Object.values(data.listings)`
(the record modelled as an association list, values in insertion order),
`.filter(...)`, `.sort(...)` (JS `Array.prototype.sort` is stable, with this
comparator it is the stable sort by ascending total price), and
`.slice(0, MAX_RETURN_LIST)`. -/
def qualifying (cfg : Config) (listings : List (String × Listing)) : List Listing :=
  (List.insertionSort priceLe ((listings.map Prod.snd).filter (passesFilter cfg))).take
    cfg.MAX_RETURN_LIST

/-- One line of the `readout` array:
`- Sec ${section} Row ${row}, ${each} each (${total} total)`. -/
def listingLine (cfg : Config) (l : Listing) : String :=
  "- Sec " ++ l.«section» ++ " Row " ++ l.row ++ ", " ++
    cfg.fmtPrice (calculateTotalPrice l) ++ " each (" ++
    cfg.fmtPrice (calculateTotalPrice l * cfg.SEATS_TOGETHER) ++ " total)"

/-- The two header lines assigned to `STATUS_MESSAGE` (lines 161–164). -/
def headerMsg (cfg : Config) : String :=
  "🏀 Seats available for " ++ cfg.EVENT_NAME ++ "!\n" ++
    "(checking " ++ cfg.PLATFORM_NAME ++ " for " ++ toString cfg.SEATS_TOGETHER ++
    " seats together at " ++ cfg.fmtPrice cfg.MAX_ALL_IN_PRICE_PER_SEAT ++
    " each in sections similar to " ++ cfg.sectionGroupNamesDisplay ++ ")"

/-- The new-lowest-price callout appended on the non-bootstrap new-low
branch (lines 174–176). -/
def newLowCallout (cfg : Config) (p : ℚ) : String :=
  "\n\n⭐ New lowest price on " ++ cfg.PLATFORM_NAME ++ ": " ++ cfg.fmtPrice p ++ "\n"

/-- The readout loop appending a newline and a line per listing to
`STATUS_MESSAGE`. -/
def readoutStr (cfg : Config) (seats : List Listing) : String :=
  String.join (seats.map fun l => "\n" ++ listingLine cfg l)

/-- Trend classification of the new lowest price against the history. -/
inductive Trend
  | NEW_LOW
  | DECREASED
  | INCREASED
  | UNCHANGED
deriving DecidableEq

/-- `Math.min(...pricesSeen)` for the non-empty history `p :: ps`. -/
def minPrice (p : ℚ) (ps : List ℚ) : ℚ :=
  ps.foldl min p

/-- The classification implicit in the if/else chain of lines 166–194:
empty history bootstraps as a new low; otherwise compare against
`lowestPriceSeen = Math.min(...pricesSeen)` and
`lastPriceSeen = pricesSeen[pricesSeen.length - 1]`, both taken before the
push of the current price. -/
def classify (pricesSeen : List ℚ) (lowestPrice : ℚ) : Trend :=
  match pricesSeen with
  | [] => .NEW_LOW
  | p :: ps =>
    if lowestPrice < minPrice p ps then .NEW_LOW
    else if lowestPrice < ps.getLastD p then .DECREASED
    else if lowestPrice > ps.getLastD p then .INCREASED
    else .UNCHANGED

/-- The outcome of the external fetch + `safeParse` seen by one tick:
the fetch (or `res.json()`) rejected; the document was fetched but failed
the zod schema (`res.success === false`); an exception was thrown inside
the `try` block (the handler at lines 132–143; no statement in the `try`
actually throws, the constructor models the semantics of the handler); or
the document parsed, yielding the listings record (an association list,
values in insertion order) and the `Date.now()` clock reading of the
tick. -/
inductive TickInput
  | transportError
  | parseFailure
  | processingException
  | parseSuccess (listings : List (String × Listing)) (now : ℤ)

/-- How a tick ends: the returned promise rejected (an exception escaped
`check`), or `check` resolved, having dispatched `sendPushAlert` with the
given message (`some`) or not (`none`). -/
inductive TickResult
  | thrown
  | completed (sent : Option String)
deriving DecidableEq

/-- The notification gate (lines 202–214): suppress when a text was sent
within the last `TEXT_MAX_FREQUENCY_MINS` minutes, else record the send
time and dispatch `STATUS_MESSAGE`. -/
def notifyGate (cfg : Config) (s : RunState) (now : ℤ) : RunState × TickResult :=
  if now - s.LAST_TEXT_SENT_AT < (cfg.TEXT_MAX_FREQUENCY_MINS : ℤ) * 60 * 1000 then
    (s, .completed none)
  else
    ({ s with LAST_TEXT_SENT_AT := now }, .completed (some s.STATUS_MESSAGE))

/-- The rest of `check` after a successful parse, starting from the
computed `AVAILABLE_SEATS` value (`seats`): `ERROR_COUNT = 0`, the
no-seats early return, the header assignment, the price-history push and
trend branch, the readout loop, and the notification gate. -/
def tickSuccess (cfg : Config) (s : RunState) (seats : List Listing) (now : ℤ) :
    RunState × TickResult :=
  match seats with
  | [] =>
    ({ s with AVAILABLE_SEATS := [], STATUS_MESSAGE := "NO_SEATS", ERROR := false,
              ERROR_COUNT := 0 },
     .completed none)
  | first :: rest =>
    let lowestPrice := calculateTotalPrice first
    let sBase : RunState :=
      { s with AVAILABLE_SEATS := first :: rest, ERROR := false, ERROR_COUNT := 0,
               pricesSeen := s.pricesSeen ++ [lowestPrice],
               STATUS_MESSAGE := headerMsg cfg }
    match s.pricesSeen with
    | [] =>
      notifyGate cfg
        { sBase with STATUS_MESSAGE := headerMsg cfg ++ readoutStr cfg (first :: rest) } now
    | p :: ps =>
      match classify (p :: ps) lowestPrice with
      | .NEW_LOW =>
        notifyGate cfg
          { sBase with STATUS_MESSAGE :=
              headerMsg cfg ++ newLowCallout cfg lowestPrice ++
                readoutStr cfg (first :: rest) } now
      | .DECREASED => (sBase, .completed none)
      | .INCREASED => (sBase, .completed none)
      | .UNCHANGED => (sBase, .completed none)

/-- One full execution of `check()`.  The function first resets
`AVAILABLE_SEATS`, `STATUS_MESSAGE` and `ERROR` (lines 88–90), then:
* a rejected fetch propagates out of `check` (the `await fetch(...)` at
  line 92 is outside the `try`/`catch`) — outcome `thrown`;
* a failed `safeParse` logs and returns early (lines 97–101), leaving
  `ERROR_COUNT` untouched;
* an exception inside the `try` runs the `catch` (lines 132–143):
  `ERROR_COUNT++`, and if the threshold is reached, `ERROR = true` and
  return; otherwise execution falls through to `ERROR_COUNT = 0` and then
  hits the no-seats early return (`AVAILABLE_SEATS` is still empty);
* a successful parse computes `AVAILABLE_SEATS` and continues in
  `tickSuccess`. -/
def tick (cfg : Config) (s : RunState) (input : TickInput) : RunState × TickResult :=
  match input with
  | .transportError =>
    ({ s with AVAILABLE_SEATS := [], STATUS_MESSAGE := "NO_SEATS", ERROR := false },
     .thrown)
  | .parseFailure =>
    ({ s with AVAILABLE_SEATS := [], STATUS_MESSAGE := "NO_SEATS", ERROR := false },
     .completed none)
  | .processingException =>
    if cfg.MIN_ERROR_COUNT ≤ s.ERROR_COUNT + 1 then
      ({ s with AVAILABLE_SEATS := [], STATUS_MESSAGE := "NO_SEATS", ERROR := true,
                ERROR_COUNT := s.ERROR_COUNT + 1 },
       .completed none)
    else
      ({ s with AVAILABLE_SEATS := [], STATUS_MESSAGE := "NO_SEATS", ERROR := false,
                ERROR_COUNT := 0 },
       .completed none)
  | .parseSuccess listings now => tickSuccess cfg s (qualifying cfg listings) now

/-- Whether a tick input yields at least one qualifying listing. -/
def hasQualifying (cfg : Config) : TickInput → Bool
  | .parseSuccess listings _ => !(qualifying cfg listings).isEmpty
  | _ => false

/-- Repeated invocation of `check` over a list of tick inputs. -/
def run (cfg : Config) (s : RunState) (inputs : List TickInput) : RunState :=
  inputs.foldl (fun s i => (tick cfg s i).1) s

/-- A String-prefix test, modelling an anchored regex such as `/^PR/`. -/
def prefixTest (pat : String) (s : String) : Bool :=
  pat.toList.isPrefixOf s.toList

/-- The configuration constants of `gametime.ts`, parameterised by the
currency formatter (locale behaviour of `toLocaleString`). -/
def defaultConfig (fmt : ℚ → String) : Config :=
  { PLATFORM_NAME := "Gametime"
    EVENT_NAME := "Lakers vs. Suns"
    SEATS_TOGETHER := 2
    MAX_ALL_IN_PRICE_PER_SEAT := 350
    SECTIONS_REGEX := [prefixTest "PR", prefixTest "1"]
    SECTION_GROUP_NAMES := [prefixTest "Premier", prefixTest "Loge", prefixTest "Baseline"]
    sectionGroupNamesDisplay := "/^Premier/, /^Loge/, /^Baseline/"
    MAX_RETURN_LIST := 10
    MIN_ERROR_COUNT := 4
    TEXT_MAX_FREQUENCY_MINS := 15
    fmtPrice := fmt }

end Gametime

namespace Gametime

/-! Helper lemmas about `minPrice` and `classify` -/

theorem minPrice_cons (p q : ℚ) (qs : List ℚ) :
    minPrice p (q :: qs) = minPrice (min p q) qs := rfl

theorem minPrice_le_head (p : ℚ) (ps : List ℚ) : minPrice p ps ≤ p := by
  induction ps generalizing p with
  | nil => exact le_refl p
  | cons q qs ih => exact le_trans (ih (min p q)) (min_le_left p q)

theorem minPrice_le (p : ℚ) (ps : List ℚ) : ∀ y ∈ p :: ps, minPrice p ps ≤ y := by
  induction ps generalizing p with
  | nil =>
    intro y hy
    rw [List.mem_singleton] at hy
    subst hy
    exact le_refl y
  | cons q qs ih =>
    intro y hy
    rcases List.mem_cons.mp hy with rfl | hy'
    · exact le_trans (minPrice_le_head _ qs) (min_le_left _ _)
    · rcases List.mem_cons.mp hy' with rfl | hy''
      · exact le_trans (minPrice_le_head _ qs) (min_le_right _ _)
      · exact ih (min p q) y (List.mem_cons_of_mem _ hy'')

theorem minPrice_mem (p : ℚ) (ps : List ℚ) : minPrice p ps ∈ p :: ps := by
  induction ps generalizing p with
  | nil => simp [minPrice]
  | cons q qs ih =>
    rw [minPrice_cons]
    rcases List.mem_cons.mp (ih (min p q)) with he | hm
    · rw [he]
      rcases min_choice p q with h1 | h1 <;> rw [h1]
      · exact List.mem_cons_self _ _
      · exact List.mem_cons_of_mem _ (List.mem_cons_self _ _)
    · exact List.mem_cons_of_mem _ (List.mem_cons_of_mem _ hm)

theorem minPrice_le_getLastD (p : ℚ) (ps : List ℚ) :
    minPrice p ps ≤ ps.getLastD p :=
  minPrice_le p ps _ (List.getLastD_mem_cons ps p)

theorem classify_new_low_iff (p : ℚ) (ps : List ℚ) (x : ℚ) :
    classify (p :: ps) x = .NEW_LOW ↔ x < minPrice p ps := by
  simp only [classify]
  split_ifs with h1 h2 h3 <;> simp_all

theorem classify_decreased_iff (p : ℚ) (ps : List ℚ) (x : ℚ) :
    classify (p :: ps) x = .DECREASED ↔ minPrice p ps ≤ x ∧ x < ps.getLastD p := by
  simp only [classify]
  split_ifs with h1 h2 h3
  · exact iff_of_false (by simp)
      (fun h => absurd h1 (not_lt.mpr h.1))
  · exact iff_of_true (by simp) ⟨not_lt.mp h1, h2⟩
  · exact iff_of_false (by simp) (fun h => absurd h.2 (asymm h3))
  · exact iff_of_false (by simp) (fun h => absurd h.2 h2)

theorem classify_increased_iff (p : ℚ) (ps : List ℚ) (x : ℚ) :
    classify (p :: ps) x = .INCREASED ↔ ps.getLastD p < x := by
  have hml : minPrice p ps ≤ ps.getLastD p := minPrice_le_getLastD p ps
  simp only [classify]
  split_ifs with h1 h2 h3
  · exact iff_of_false (by simp)
      (fun h => absurd (lt_trans h1 (lt_of_le_of_lt hml h)) (lt_irrefl x))
  · exact iff_of_false (by simp) (fun h => absurd h2 (asymm h))
  · exact iff_of_true (by simp) h3
  · exact iff_of_false (by simp) h3

theorem classify_unchanged_iff (p : ℚ) (ps : List ℚ) (x : ℚ) :
    classify (p :: ps) x = .UNCHANGED ↔ x = ps.getLastD p := by
  have hml : minPrice p ps ≤ ps.getLastD p := minPrice_le_getLastD p ps
  simp only [classify]
  split_ifs with h1 h2 h3
  · refine iff_of_false (by simp) (fun h => ?_)
    subst h
    exact absurd h1 (not_lt.mpr hml)
  · exact iff_of_false (by simp)
      (fun h => absurd h2 (h ▸ lt_irrefl x))
  · exact iff_of_false (by simp)
      (fun h => absurd h3 (h ▸ lt_irrefl x))
  · exact iff_of_true (by simp) (le_antisymm (not_lt.mp h3) (not_lt.mp h2))

end Gametime

namespace Gametime
/-! The filter predicate, characterised -/

theorem passesFilter_iff (cfg : Config) (l : Listing) :
    passesFilter cfg l = true ↔
      cfg.SEATS_TOGETHER ≤ l.seats.length ∧
      cfg.SEATS_TOGETHER ∈ l.lots ∧
      ((∃ r ∈ cfg.SECTIONS_REGEX, r l.«section» = true) ∨
        (∃ r ∈ cfg.SECTION_GROUP_NAMES, r l.section_group = true)) ∧
      calculateTotalPrice l ≤ cfg.MAX_ALL_IN_PRICE_PER_SEAT := by
  by_cases h1 : l.seats.length < cfg.SEATS_TOGETHER
  · unfold passesFilter
    rw [if_pos h1]
    refine iff_of_false (by simp) ?_
    rintro ⟨ha, -⟩
    omega
  · by_cases h2 : cfg.SEATS_TOGETHER ∈ l.lots
    · by_cases h3 : ¬ (cfg.SECTIONS_REGEX.any fun r => r l.«section») ∧
          ¬ (cfg.SECTION_GROUP_NAMES.any fun r => r l.section_group)
      · unfold passesFilter
        rw [if_neg h1, if_neg (not_not_intro h2), if_pos h3]
        refine iff_of_false (by simp) ?_
        rintro ⟨-, -, hc, -⟩
        rcases hc with ⟨r, hr, hrt⟩ | ⟨r, hr, hrt⟩
        · exact h3.1 (List.any_eq_true.mpr ⟨r, hr, hrt⟩)
        · exact h3.2 (List.any_eq_true.mpr ⟨r, hr, hrt⟩)
      · by_cases h4 : calculateTotalPrice l > cfg.MAX_ALL_IN_PRICE_PER_SEAT
        · unfold passesFilter
          rw [if_neg h1, if_neg (not_not_intro h2), if_neg h3, if_pos h4]
          refine iff_of_false (by simp) ?_
          rintro ⟨-, -, -, hd⟩
          exact absurd h4 (not_lt.mpr hd)
        · unfold passesFilter
          rw [if_neg h1, if_neg (not_not_intro h2), if_neg h3, if_neg h4]
          refine iff_of_true rfl ⟨not_lt.mp h1, h2, ?_, not_lt.mp h4⟩
          rcases not_and_or.mp h3 with h | h
          · rcases List.any_eq_true.mp (not_not.mp h) with ⟨r, hr, hrt⟩
            exact Or.inl ⟨r, hr, hrt⟩
          · rcases List.any_eq_true.mp (not_not.mp h) with ⟨r, hr, hrt⟩
            exact Or.inr ⟨r, hr, hrt⟩
    · unfold passesFilter
      rw [if_neg h1, if_pos h2]
      refine iff_of_false (by simp) ?_
      rintro ⟨-, hb, -⟩
      exact h2 hb

/-! Stability of the sort: filtering the sorted list at any fixed total
price gives the same sublist, in the same order, as filtering the input. -/

/-- Boolean test for `calculateTotalPrice x = q`. -/
def samePriceB (q : ℚ) (x : Listing) : Bool :=
  decide (calculateTotalPrice x = q)

theorem filter_orderedInsert_of_key {q : ℚ} (l : Listing) (s : List Listing)
    (h : calculateTotalPrice l = q) :
    (List.orderedInsert priceLe l s).filter (samePriceB q) =
      l :: s.filter (samePriceB q) := by
  induction s with
  | nil => simp [List.orderedInsert, samePriceB, h]
  | cons b t ih =>
    simp only [List.orderedInsert]
    by_cases hb : priceLe l b
    · rw [if_pos hb, List.filter_cons, List.filter_cons]
      simp [samePriceB, h]
    · have hbq : samePriceB q b = false := by
        simp only [samePriceB, decide_eq_false_iff_not]
        intro hq
        exact hb (by unfold priceLe; rw [h, hq])
      rw [if_neg hb, List.filter_cons, hbq, List.filter_cons, hbq]
      simp only [Bool.false_eq_true, if_false]
      exact ih

theorem filter_orderedInsert_of_ne {q : ℚ} (l : Listing) (s : List Listing)
    (h : calculateTotalPrice l ≠ q) :
    (List.orderedInsert priceLe l s).filter (samePriceB q) =
      s.filter (samePriceB q) := by
  have hlq : samePriceB q l = false := by
    simp only [samePriceB, decide_eq_false_iff_not]
    exact h
  induction s with
  | nil => simp [List.orderedInsert, hlq]
  | cons b t ih =>
    simp only [List.orderedInsert]
    by_cases hb : priceLe l b
    · rw [if_pos hb, List.filter_cons, hlq]
      simp only [Bool.false_eq_true, if_false]
    · rw [if_neg hb, List.filter_cons, List.filter_cons, ih]

theorem filter_insertionSort (q : ℚ) (xs : List Listing) :
    (List.insertionSort priceLe xs).filter (samePriceB q) =
      xs.filter (samePriceB q) := by
  induction xs with
  | nil => rfl
  | cons a t ih =>
    show (List.orderedInsert priceLe a (List.insertionSort priceLe t)).filter
        (samePriceB q) = _
    by_cases ha : calculateTotalPrice a = q
    · rw [filter_orderedInsert_of_key a _ ha, ih, List.filter_cons]
      simp [samePriceB, ha]
    · rw [filter_orderedInsert_of_ne a _ ha, ih, List.filter_cons]
      simp [samePriceB, ha]

end Gametime

namespace Gametime

/-! Component lemmas about `notifyGate`, `tickSuccess`, `tick` -/

theorem notifyGate_pricesSeen (cfg : Config) (s : RunState) (now : ℤ) :
    (notifyGate cfg s now).1.pricesSeen = s.pricesSeen := by
  unfold notifyGate
  split <;> rfl

theorem notifyGate_STATUS (cfg : Config) (s : RunState) (now : ℤ) :
    (notifyGate cfg s now).1.STATUS_MESSAGE = s.STATUS_MESSAGE := by
  unfold notifyGate
  split <;> rfl

theorem notifyGate_suppress (cfg : Config) (s : RunState) (now : ℤ)
    (h : now - s.LAST_TEXT_SENT_AT < (cfg.TEXT_MAX_FREQUENCY_MINS : ℤ) * 60 * 1000) :
    notifyGate cfg s now = (s, .completed none) := by
  unfold notifyGate
  rw [if_pos h]

theorem notifyGate_send (cfg : Config) (s : RunState) (now : ℤ)
    (h : ¬ now - s.LAST_TEXT_SENT_AT < (cfg.TEXT_MAX_FREQUENCY_MINS : ℤ) * 60 * 1000) :
    notifyGate cfg s now =
      ({ s with LAST_TEXT_SENT_AT := now }, .completed (some s.STATUS_MESSAGE)) := by
  unfold notifyGate
  rw [if_neg h]

theorem tick_parseSuccess_eq (cfg : Config) (s : RunState)
    (L : List (String × Listing)) (now : ℤ) :
    tick cfg s (.parseSuccess L now) = tickSuccess cfg s (qualifying cfg L) now := rfl

theorem tickSuccess_pricesSeen (cfg : Config) (s : RunState) (seats : List Listing)
    (now : ℤ) :
    (tickSuccess cfg s seats now).1.pricesSeen =
      match seats with
      | [] => s.pricesSeen
      | first :: _ => s.pricesSeen ++ [calculateTotalPrice first] := by
  cases seats with
  | nil => rfl
  | cons first rest =>
    simp only [tickSuccess]
    cases hp : s.pricesSeen with
    | nil => rw [notifyGate_pricesSeen]
    | cons p ps =>
      cases hc : classify (p :: ps) (calculateTotalPrice first) <;>
        simp [hc, notifyGate_pricesSeen]

theorem tick_pricesSeen_no_qualifying (cfg : Config) (s : RunState) (i : TickInput)
    (h : hasQualifying cfg i = false) :
    (tick cfg s i).1.pricesSeen = s.pricesSeen := by
  cases i with
  | transportError => rfl
  | parseFailure => rfl
  | processingException =>
    simp only [tick]
    split <;> rfl
  | parseSuccess L now =>
    rw [tick_parseSuccess_eq, tickSuccess_pricesSeen]
    simp only [hasQualifying] at h
    cases hq : qualifying cfg L with
    | nil => rfl
    | cons a t => rw [hq] at h; simp at h

theorem tick_pricesSeen_qualifying (cfg : Config) (s : RunState)
    (L : List (String × Listing)) (now : ℤ) (first : Listing) (rest : List Listing)
    (h : qualifying cfg L = first :: rest) :
    (tick cfg s (.parseSuccess L now)).1.pricesSeen =
      s.pricesSeen ++ [calculateTotalPrice first] := by
  rw [tick_parseSuccess_eq, h, tickSuccess_pricesSeen]

theorem tick_pricesSeen_length (cfg : Config) (s : RunState) (i : TickInput) :
    (tick cfg s i).1.pricesSeen.length =
      s.pricesSeen.length + (if hasQualifying cfg i then 1 else 0) := by
  cases hq : hasQualifying cfg i with
  | false => rw [tick_pricesSeen_no_qualifying cfg s i hq]; simp
  | true =>
    cases i with
    | parseSuccess L now =>
      simp only [hasQualifying] at hq
      cases h : qualifying cfg L with
      | nil => rw [h] at hq; simp at hq
      | cons first rest =>
        rw [tick_pricesSeen_qualifying cfg s L now first rest h]
        simp
    | transportError => simp [hasQualifying] at hq
    | parseFailure => simp [hasQualifying] at hq
    | processingException => simp [hasQualifying] at hq

theorem tick_pricesSeen_extends (cfg : Config) (s : RunState) (i : TickInput) :
    s.pricesSeen <+: (tick cfg s i).1.pricesSeen := by
  cases hq : hasQualifying cfg i with
  | false => rw [tick_pricesSeen_no_qualifying cfg s i hq]
  | true =>
    cases i with
    | parseSuccess L now =>
      simp only [hasQualifying] at hq
      cases h : qualifying cfg L with
      | nil => rw [h] at hq; simp at hq
      | cons first rest =>
        rw [tick_pricesSeen_qualifying cfg s L now first rest h]
        exact ⟨[calculateTotalPrice first], rfl⟩
    | transportError => simp [hasQualifying] at hq
    | parseFailure => simp [hasQualifying] at hq
    | processingException => simp [hasQualifying] at hq

theorem run_pricesSeen_length (cfg : Config) (s : RunState) (inputs : List TickInput) :
    (run cfg s inputs).pricesSeen.length =
      s.pricesSeen.length + inputs.countP (hasQualifying cfg) := by
  induction inputs generalizing s with
  | nil => simp [run]
  | cons i t ih =>
    show (run cfg (tick cfg s i).1 t).pricesSeen.length = _
    rw [ih, tick_pricesSeen_length, List.countP_cons]
    rcases hasQualifying cfg i with - | -
    · simp
    · simp
      omega

theorem run_pricesSeen_extends (cfg : Config) (s : RunState) (inputs : List TickInput) :
    s.pricesSeen <+: (run cfg s inputs).pricesSeen := by
  induction inputs generalizing s with
  | nil => exact List.prefix_refl _
  | cons i t ih =>
    exact (tick_pricesSeen_extends cfg s i).trans (ih (tick cfg s i).1)

/-! The ranked output: sortedness, truncation, stability -/

theorem sorted_qualifying (cfg : Config) (L : List (String × Listing)) :
    List.Sorted priceLe (qualifying cfg L) :=
  List.Pairwise.sublist (List.take_sublist _ _)
    (List.sorted_insertionSort priceLe ((L.map Prod.snd).filter (passesFilter cfg)))

theorem qualifying_length_le (cfg : Config) (L : List (String × Listing)) :
    (qualifying cfg L).length ≤ cfg.MAX_RETURN_LIST :=
  List.length_take_le _ _

theorem qualifying_stable (cfg : Config) (L : List (String × Listing)) (q : ℚ) :
    (qualifying cfg L).filter (samePriceB q) <+:
      ((L.map Prod.snd).filter (passesFilter cfg)).filter (samePriceB q) := by
  have h := List.IsPrefix.filter (samePriceB q)
    ( List.take_prefix cfg.MAX_RETURN_LIST
      (List.insertionSort priceLe ((L.map Prod.snd).filter (passesFilter cfg))))
  rwa [filter_insertionSort] at h

end Gametime

namespace Gametime

/-- Branch equation: first-ever qualifying tick (empty history). -/
theorem tickSuccess_bootstrap (cfg : Config) (s : RunState) (first : Listing)
    (rest : List Listing) (now : ℤ) (hp : s.pricesSeen = []) :
    tickSuccess cfg s (first :: rest) now =
      notifyGate cfg
        { s with AVAILABLE_SEATS := first :: rest, ERROR := false, ERROR_COUNT := 0,
                 pricesSeen := s.pricesSeen ++ [calculateTotalPrice first],
                 STATUS_MESSAGE := headerMsg cfg ++ readoutStr cfg (first :: rest) }
        now := by
  simp only [tickSuccess, hp]

/-- Branch equation: qualifying tick, non-empty history, new all-time low. -/
theorem tickSuccess_new_low (cfg : Config) (s : RunState) (first : Listing)
    (rest : List Listing) (now : ℤ) (p : ℚ) (ps : List ℚ)
    (hp : s.pricesSeen = p :: ps)
    (hc : classify (p :: ps) (calculateTotalPrice first) = .NEW_LOW) :
    tickSuccess cfg s (first :: rest) now =
      notifyGate cfg
        { s with AVAILABLE_SEATS := first :: rest, ERROR := false, ERROR_COUNT := 0,
                 pricesSeen := s.pricesSeen ++ [calculateTotalPrice first],
                 STATUS_MESSAGE := headerMsg cfg ++
                   newLowCallout cfg (calculateTotalPrice first) ++
                   readoutStr cfg (first :: rest) }
        now := by
  simp only [tickSuccess, hp, hc]

/-- Branch equation: qualifying tick, non-empty history, not a new all-time
low — the tick logs and returns before the readout loop and the gate. -/
theorem tickSuccess_not_new_low (cfg : Config) (s : RunState) (first : Listing)
    (rest : List Listing) (now : ℤ) (p : ℚ) (ps : List ℚ)
    (hp : s.pricesSeen = p :: ps)
    (hc : classify (p :: ps) (calculateTotalPrice first) ≠ .NEW_LOW) :
    tickSuccess cfg s (first :: rest) now =
      ({ s with AVAILABLE_SEATS := first :: rest, ERROR := false, ERROR_COUNT := 0,
                pricesSeen := s.pricesSeen ++ [calculateTotalPrice first],
                STATUS_MESSAGE := headerMsg cfg },
       .completed none) := by
  simp only [tickSuccess, hp]
  cases hc2 : classify (p :: ps) (calculateTotalPrice first) with
  | NEW_LOW => exact absurd hc2 hc
  | DECREASED => rfl
  | INCREASED => rfl
  | UNCHANGED => rfl

end Gametime

namespace Gametime

/-! A concrete scenario for witnesses and counterexamples -/

/-- A trivial currency formatter standing in for `toLocaleString`. -/
def fmtW : ℚ → String := fun _ => "$"

/-- The source configuration with the trivial formatter. -/
def cfgW : Config := defaultConfig fmtW

/-- A listing that passes every filter of `cfgW`:
2 seats, lot of 2, section `101` (matches `/^1/`), all-in 10000 cents. -/
def wListing : Listing :=
  { price := { face_value := none, prefee := 10000, total := 0, sales_tax := 0 }
    lots := [2]
    seats := ["*", "*"]
    id := "a"
    row := "5"
    «section» := "101"
    section_group := "Premier" }

theorem wPrice : calculateTotalPrice wListing = 100 := by
  norm_num [calculateTotalPrice, wListing]

theorem wPasses : passesFilter cfgW wListing = true := by
  rw [passesFilter_iff]
  refine ⟨by norm_num [wListing, cfgW, defaultConfig],
    by norm_num [wListing, cfgW, defaultConfig],
    Or.inl ⟨prefixTest "1", ?_, by decide⟩, ?_⟩
  · exact List.mem_cons_of_mem _ (List.mem_cons_self _ _)
  · rw [wPrice]
    norm_num [cfgW, defaultConfig]

theorem wQualifying : qualifying cfgW [("a", wListing)] = [wListing] := by
  unfold qualifying
  rw [show ([("a", wListing)].map Prod.snd) = [wListing] from rfl]
  rw [List.filter_cons, wPasses]
  simp only [List.insertionSort, List.orderedInsert, if_true, List.filter_nil]
  show List.take cfgW.MAX_RETURN_LIST [wListing] = [wListing]
  rfl

end Gametime

namespace Gametime

/-- C4. For every validated listing mapping, the output of the filter stage
contains exactly the listings satisfying all four conditions: enough seat
labels, the requested seat count offered as a lot, a section-code or
section-group pattern match (OR between the families), and all-in total
price (`(prefee + total + sales_tax) / 100`) at most the per-seat cap. -/
theorem claim_C4_filter_membership (cfg : Config) (L : List (String × Listing))
    (l : Listing) :
    l ∈ (L.map Prod.snd).filter (passesFilter cfg) ↔
      l ∈ L.map Prod.snd ∧
      cfg.SEATS_TOGETHER ≤ l.seats.length ∧
      cfg.SEATS_TOGETHER ∈ l.lots ∧
      ((∃ r ∈ cfg.SECTIONS_REGEX, r l.«section» = true) ∨
        (∃ r ∈ cfg.SECTION_GROUP_NAMES, r l.section_group = true)) ∧
      calculateTotalPrice l ≤ cfg.MAX_ALL_IN_PRICE_PER_SEAT := by
  rw [List.mem_filter, passesFilter_iff]

/-- C6. The qualifying output is sorted non-decreasing by total price,
holds at most `MAX_RETURN_LIST` entries, and the sort is stable: filtering
the sorted (untruncated) list at any fixed total price returns exactly the
equal-priced listings in their original iteration order, and after
truncation a prefix of them. -/
theorem claim_C6_sorted_stable_truncated (cfg : Config)
    (L : List (String × Listing)) :
    List.Sorted priceLe (qualifying cfg L) ∧
    (qualifying cfg L).length ≤ cfg.MAX_RETURN_LIST ∧
    (∀ q : ℚ,
      (List.insertionSort priceLe ((L.map Prod.snd).filter (passesFilter cfg))).filter
          (samePriceB q) =
        ((L.map Prod.snd).filter (passesFilter cfg)).filter (samePriceB q)) ∧
    (∀ q : ℚ,
      (qualifying cfg L).filter (samePriceB q) <+:
        ((L.map Prod.snd).filter (passesFilter cfg)).filter (samePriceB q)) :=
  ⟨sorted_qualifying cfg L, qualifying_length_le cfg L,
    fun q => filter_insertionSort q _, fun q => qualifying_stable cfg L q⟩

/-- C1, a code bug. The claim says a tick whose document fails schema
validation increments `consecutive_error_count` by one.  In the code a
failed `safeParse` returns early (lines 97–101) without touching
`ERROR_COUNT` — the incrementing `catch` handler is unreachable for
validation failures because `safeParse` never throws.  This theorem
evaluates the code at any such tick: the counter is unchanged and no
increment happens. -/
theorem claim_C1_validation_failure_counter (cfg : Config) (s : RunState) :
    (tick cfg s .parseFailure).1.ERROR_COUNT = s.ERROR_COUNT ∧
    (tick cfg s .parseFailure).1.ERROR = false ∧
    (tick cfg s .parseFailure).2 = .completed none :=
  ⟨rfl, rfl, rfl⟩

/-- C7. `pricesSeen` is append-only: every tick leaves the old history
as a prefix; a tick without a qualifying listing (including all failure
modes) leaves it unchanged; a tick with qualifying listings appends exactly
the lowest qualifying total price; over a whole run the length grows by
exactly the number of ticks with at least one qualifying listing — hence it
never decreases and never exceeds that number. -/
theorem claim_C7_price_history_append_only :
    (∀ (cfg : Config) (s : RunState) (i : TickInput),
      s.pricesSeen <+: (tick cfg s i).1.pricesSeen) ∧
    (∀ (cfg : Config) (s : RunState) (i : TickInput),
      hasQualifying cfg i = false → (tick cfg s i).1.pricesSeen = s.pricesSeen) ∧
    (∀ (cfg : Config) (s : RunState) (L : List (String × Listing)) (now : ℤ)
      (first : Listing) (rest : List Listing),
      qualifying cfg L = first :: rest →
      (tick cfg s (.parseSuccess L now)).1.pricesSeen =
        s.pricesSeen ++ [calculateTotalPrice first]) ∧
    (∀ (cfg : Config) (s : RunState) (inputs : List TickInput),
      (run cfg s inputs).pricesSeen.length =
        s.pricesSeen.length + inputs.countP (hasQualifying cfg)) ∧
    (∀ (cfg : Config) (s : RunState) (inputs : List TickInput),
      s.pricesSeen <+: (run cfg s inputs).pricesSeen) :=
  ⟨tick_pricesSeen_extends, tick_pricesSeen_no_qualifying,
    tick_pricesSeen_qualifying, run_pricesSeen_length, run_pricesSeen_extends⟩

/-- Witness for C7 at a concrete input: a failed tick appends nothing, a
tick with one qualifying listing appends exactly its total price. -/
theorem claim_C7_witness :
    (tick cfgW initialState .parseFailure).1.pricesSeen = initialState.pricesSeen ∧
    (tick cfgW initialState (.parseSuccess [("a", wListing)] 0)).1.pricesSeen =
      initialState.pricesSeen ++ [calculateTotalPrice wListing] :=
  ⟨claim_C7_price_history_append_only.2.1 cfgW initialState .parseFailure rfl,
    claim_C7_price_history_append_only.2.2.1 cfgW initialState [("a", wListing)] 0
      wListing [] wQualifying⟩

end Gametime

namespace Gametime

theorem notifyGate_ne_thrown (cfg : Config) (s : RunState) (now : ℤ) :
    (notifyGate cfg s now).2 ≠ .thrown := by
  unfold notifyGate
  split <;> simp

theorem tickSuccess_ne_thrown (cfg : Config) (s : RunState) (seats : List Listing)
    (now : ℤ) : (tickSuccess cfg s seats now).2 ≠ .thrown := by
  cases seats with
  | nil => simp [tickSuccess]
  | cons first rest =>
    cases hp : s.pricesSeen with
    | nil =>
      rw [tickSuccess_bootstrap cfg s first rest now hp]
      exact notifyGate_ne_thrown cfg _ now
    | cons p ps =>
      by_cases hc : classify (p :: ps) (calculateTotalPrice first) = .NEW_LOW
      · rw [tickSuccess_new_low cfg s first rest now p ps hp hc]
        exact notifyGate_ne_thrown cfg _ now
      · rw [tickSuccess_not_new_low cfg s first rest now p ps hp hc]
        simp

/-- C3, amended. An exception escapes `check` exactly on a transport
error: the `await fetch(...)` sits outside the `try`/`catch`, so a rejected
fetch propagates to the caller — and it leaves the error counter untouched
rather than incrementing it.  Every other tick input completes without
throwing. -/
theorem claim_C3_amended_propagation :
    (∀ (cfg : Config) (s : RunState) (i : TickInput),
      (tick cfg s i).2 = .thrown ↔ i = .transportError) ∧
    (∀ (cfg : Config) (s : RunState),
      (tick cfg s .transportError).1.ERROR_COUNT = s.ERROR_COUNT) := by
  constructor
  · intro cfg s i
    cases i with
    | transportError => simp [tick]
    | parseFailure => simp [tick]
    | processingException =>
      simp only [tick]
      split <;> simp
    | parseSuccess L now =>
      rw [tick_parseSuccess_eq]
      exact iff_of_false (tickSuccess_ne_thrown cfg s _ now) (by simp)
  · intro cfg s
    rfl

/-- C3, counterexample to the claim as stated: on a transport-error
tick the exception propagates out of `check` (outcome `thrown`), and the
error counter is not incremented. -/
theorem claim_C3_counterexample :
    (tick cfgW initialState .transportError).2 = .thrown ∧
    (tick cfgW initialState .transportError).1.ERROR_COUNT = 0 ∧
    initialState.ERROR_COUNT = 0 :=
  ⟨rfl, rfl, rfl⟩

/-- C9. The first-ever tick with a qualifying listing (empty prior
history): records the lowest total price as the single history entry,
classifies as NEW_LOW, and runs straight into the notification gate — the
tick literally equals `notifyGate` applied to the updated state, so the
only thing that can stop the notification is the frequency gate. -/
theorem claim_C9_bootstrap_new_low (cfg : Config) (s : RunState)
    (L : List (String × Listing)) (now : ℤ) (first : Listing) (rest : List Listing)
    (hp : s.pricesSeen = []) (hq : qualifying cfg L = first :: rest) :
    (tick cfg s (.parseSuccess L now)).1.pricesSeen = [calculateTotalPrice first] ∧
    classify s.pricesSeen (calculateTotalPrice first) = .NEW_LOW ∧
    tick cfg s (.parseSuccess L now) =
      notifyGate cfg
        { s with AVAILABLE_SEATS := first :: rest, ERROR := false, ERROR_COUNT := 0,
                 pricesSeen := s.pricesSeen ++ [calculateTotalPrice first],
                 STATUS_MESSAGE := headerMsg cfg ++ readoutStr cfg (first :: rest) }
        now ∧
    ((tick cfg s (.parseSuccess L now)).2 = .completed none ↔
      now - s.LAST_TEXT_SENT_AT < (cfg.TEXT_MAX_FREQUENCY_MINS : ℤ) * 60 * 1000) := by
  have heq : tick cfg s (.parseSuccess L now) =
      notifyGate cfg
        { s with AVAILABLE_SEATS := first :: rest, ERROR := false, ERROR_COUNT := 0,
                 pricesSeen := s.pricesSeen ++ [calculateTotalPrice first],
                 STATUS_MESSAGE := headerMsg cfg ++ readoutStr cfg (first :: rest) }
        now := by
    rw [tick_parseSuccess_eq, hq, tickSuccess_bootstrap cfg s first rest now hp]
  refine ⟨?_, ?_, heq, ?_⟩
  · rw [heq, notifyGate_pricesSeen]
    simp [hp]
  · rw [hp]
    rfl
  · by_cases hg : now - s.LAST_TEXT_SENT_AT <
        (cfg.TEXT_MAX_FREQUENCY_MINS : ℤ) * 60 * 1000
    · rw [heq, notifyGate_suppress cfg _ now (by simpa using hg)]
      exact iff_of_true rfl hg
    · rw [heq, notifyGate_send cfg _ now (by simpa using hg)]
      exact iff_of_false (by simp) hg

/-- Witness for C9 at a concrete first tick: the history becomes the single
lowest price, the classification is NEW_LOW, and (the gate being open,
`now` far beyond the frequency window) the notification is dispatched. -/
theorem claim_C9_witness :
    (tick cfgW initialState
        (.parseSuccess [("a", wListing)] 1000000000)).1.pricesSeen =
      [calculateTotalPrice wListing] ∧
    classify initialState.pricesSeen (calculateTotalPrice wListing) = .NEW_LOW ∧
    (tick cfgW initialState
        (.parseSuccess [("a", wListing)] 1000000000)).2 ≠ .completed none := by
  have h := claim_C9_bootstrap_new_low cfgW initialState [("a", wListing)] 1000000000
    wListing [] rfl wQualifying
  refine ⟨h.1, h.2.1, fun hnone => ?_⟩
  exact absurd (h.2.2.2.mp hnone) (by decide)

/-- Any NEW_LOW tick (bootstrap or not) reaches the notification gate with
the send timestamp unchanged and the new price appended. -/
theorem tick_new_low_components (cfg : Config) (s : RunState)
    (L : List (String × Listing)) (now : ℤ) (first : Listing) (rest : List Listing)
    (hq : qualifying cfg L = first :: rest)
    (hc : classify s.pricesSeen (calculateTotalPrice first) = .NEW_LOW) :
    ∃ s' : RunState,
      tick cfg s (.parseSuccess L now) = notifyGate cfg s' now ∧
      s'.LAST_TEXT_SENT_AT = s.LAST_TEXT_SENT_AT ∧
      s'.pricesSeen = s.pricesSeen ++ [calculateTotalPrice first] := by
  cases hp : s.pricesSeen with
  | nil =>
    apply Exists.intro
      ({ s with AVAILABLE_SEATS := first :: rest, ERROR := false, ERROR_COUNT := 0,
                pricesSeen := s.pricesSeen ++ [calculateTotalPrice first],
                STATUS_MESSAGE := headerMsg cfg ++ readoutStr cfg (first :: rest) })
    refine ⟨?_, rfl, by simp [hp]⟩
    rw [tick_parseSuccess_eq, hq, tickSuccess_bootstrap cfg s first rest now hp]
  | cons p ps =>
    rw [hp] at hc
    apply Exists.intro
      ({ s with AVAILABLE_SEATS := first :: rest, ERROR := false, ERROR_COUNT := 0,
                pricesSeen := s.pricesSeen ++ [calculateTotalPrice first],
                STATUS_MESSAGE := headerMsg cfg ++
                  newLowCallout cfg (calculateTotalPrice first) ++
                  readoutStr cfg (first :: rest) })
    refine ⟨?_, rfl, by simp [hp]⟩
    rw [tick_parseSuccess_eq, hq, tickSuccess_new_low cfg s first rest now p ps hp hc]

end Gametime

namespace Gametime

/-- C8. On any NEW_LOW tick with qualifying listings the frequency gate
decides: within the window the send is suppressed and
`LAST_TEXT_SENT_AT` is unchanged; outside it the message is dispatched and
`LAST_TEXT_SENT_AT` becomes `now`.  Consequently, of two consecutive
NEW_LOW ticks within the window of each other, the second is suppressed
and the timestamp still carries the time of the first tick. -/
theorem claim_C8_notification_throttle (cfg : Config) (s : RunState)
    (L : List (String × Listing)) (now : ℤ) (first : Listing) (rest : List Listing)
    (hq : qualifying cfg L = first :: rest)
    (hc : classify s.pricesSeen (calculateTotalPrice first) = .NEW_LOW) :
    (now - s.LAST_TEXT_SENT_AT < (cfg.TEXT_MAX_FREQUENCY_MINS : ℤ) * 60 * 1000 →
      (tick cfg s (.parseSuccess L now)).2 = .completed none ∧
      (tick cfg s (.parseSuccess L now)).1.LAST_TEXT_SENT_AT =
        s.LAST_TEXT_SENT_AT) ∧
    (¬ now - s.LAST_TEXT_SENT_AT < (cfg.TEXT_MAX_FREQUENCY_MINS : ℤ) * 60 * 1000 →
      (∃ msg, (tick cfg s (.parseSuccess L now)).2 = .completed (some msg)) ∧
      (tick cfg s (.parseSuccess L now)).1.LAST_TEXT_SENT_AT = now) ∧
    (∀ (L2 : List (String × Listing)) (now2 : ℤ) (first2 : Listing)
        (rest2 : List Listing),
      qualifying cfg L2 = first2 :: rest2 →
      ¬ now - s.LAST_TEXT_SENT_AT < (cfg.TEXT_MAX_FREQUENCY_MINS : ℤ) * 60 * 1000 →
      classify (tick cfg s (.parseSuccess L now)).1.pricesSeen
          (calculateTotalPrice first2) = .NEW_LOW →
      now2 - now < (cfg.TEXT_MAX_FREQUENCY_MINS : ℤ) * 60 * 1000 →
      (tick cfg (tick cfg s (.parseSuccess L now)).1 (.parseSuccess L2 now2)).2 =
          .completed none ∧
      (tick cfg (tick cfg s (.parseSuccess L now)).1
          (.parseSuccess L2 now2)).1.LAST_TEXT_SENT_AT = now) := by
  obtain ⟨s', he, hLast, hPrices⟩ := tick_new_low_components cfg s L now first rest hq hc
  refine ⟨?_, ?_, ?_⟩
  · intro hg
    rw [he, notifyGate_suppress cfg s' now (by rw [hLast]; exact hg)]
    exact ⟨rfl, hLast⟩
  · intro hg
    rw [he, notifyGate_send cfg s' now (by rw [hLast]; exact hg)]
    exact ⟨⟨s'.STATUS_MESSAGE, rfl⟩, rfl⟩
  · intro L2 now2 first2 rest2 hq2 hg1 hc2 hg2
    have hL1 : (tick cfg s (.parseSuccess L now)).1.LAST_TEXT_SENT_AT = now := by
      rw [he, notifyGate_send cfg s' now (by rw [hLast]; exact hg1)]
    obtain ⟨s2', he2, hLast2, -⟩ :=
      tick_new_low_components cfg (tick cfg s (.parseSuccess L now)).1 L2 now2
        first2 rest2 hq2 hc2
    have hcond : now2 - s2'.LAST_TEXT_SENT_AT <
        (cfg.TEXT_MAX_FREQUENCY_MINS : ℤ) * 60 * 1000 := by
      rw [hLast2, hL1]
      exact hg2
    rw [he2, notifyGate_suppress cfg s2' now2 hcond]
    exact ⟨rfl, by rw [hLast2, hL1]⟩

/-- The run state before the suppressed tick of the C8 witness: a text was
just sent at t = 1000 and the history holds one price of 200. -/
def sW8 : RunState :=
  { pricesSeen := [200]
    AVAILABLE_SEATS := []
    LAST_TEXT_SENT_AT := 1000
    ERROR_COUNT := 0
    ERROR := false
    STATUS_MESSAGE := "NO_SEATS" }

/-- Witness for C8 at a concrete input: a NEW_LOW tick 1 second after the
last text (window 15 min) is suppressed and the timestamp is unchanged. -/
theorem claim_C8_witness :
    (tick cfgW sW8 (.parseSuccess [("a", wListing)] 2000)).2 = .completed none ∧
    (tick cfgW sW8 (.parseSuccess [("a", wListing)] 2000)).1.LAST_TEXT_SENT_AT =
      sW8.LAST_TEXT_SENT_AT :=
  (claim_C8_notification_throttle cfgW sW8 [("a", wListing)] 2000 wListing []
    wQualifying (by rw [wPrice]; decide)).1 (by decide)

/-- C5. On a tick with non-empty price history: `minPrice` is the true
minimum of the history; the classification is NEW_LOW / DECREASED /
INCREASED / UNCHANGED exactly under the claimed comparisons against the
historic minimum and the last entry (both taken before the append); a
non-NEW_LOW classification returns early — the tick completes with no
dispatch, the status left at the header, the send timestamp untouched —
while a NEW_LOW tick can only fail to notify because of the frequency
gate.  The two spec examples are instances. -/
theorem claim_C5_trend_classification (p₀ : ℚ) (ps : List ℚ) (x : ℚ) :
    ((minPrice p₀ ps ∈ p₀ :: ps ∧ ∀ y ∈ p₀ :: ps, minPrice p₀ ps ≤ y) ∧
      (classify (p₀ :: ps) x = .NEW_LOW ↔ x < minPrice p₀ ps) ∧
      (classify (p₀ :: ps) x = .DECREASED ↔
        minPrice p₀ ps ≤ x ∧ x < ps.getLastD p₀) ∧
      (classify (p₀ :: ps) x = .INCREASED ↔ ps.getLastD p₀ < x) ∧
      (classify (p₀ :: ps) x = .UNCHANGED ↔ x = ps.getLastD p₀)) ∧
    (∀ (cfg : Config) (s : RunState) (L : List (String × Listing)) (now : ℤ)
        (first : Listing) (rest : List Listing),
      qualifying cfg L = first :: rest →
      s.pricesSeen = p₀ :: ps →
      classify (p₀ :: ps) (calculateTotalPrice first) ≠ .NEW_LOW →
      tick cfg s (.parseSuccess L now) =
        ({ s with AVAILABLE_SEATS := first :: rest, ERROR := false, ERROR_COUNT := 0,
                  pricesSeen := s.pricesSeen ++ [calculateTotalPrice first],
                  STATUS_MESSAGE := headerMsg cfg },
         .completed none)) ∧
    (∀ (cfg : Config) (s : RunState) (L : List (String × Listing)) (now : ℤ)
        (first : Listing) (rest : List Listing),
      qualifying cfg L = first :: rest →
      s.pricesSeen = p₀ :: ps →
      classify (p₀ :: ps) (calculateTotalPrice first) = .NEW_LOW →
      (tick cfg s (.parseSuccess L now)).2 = .completed none →
      now - s.LAST_TEXT_SENT_AT < (cfg.TEXT_MAX_FREQUENCY_MINS : ℤ) * 60 * 1000) ∧
    classify [500, 480, 480] 470 = .NEW_LOW ∧
    classify [500, 480] 490 = .INCREASED := by
  refine ⟨⟨⟨minPrice_mem p₀ ps, minPrice_le p₀ ps⟩, classify_new_low_iff p₀ ps x,
    classify_decreased_iff p₀ ps x, classify_increased_iff p₀ ps x,
    classify_unchanged_iff p₀ ps x⟩, ?_, ?_, by decide, by decide⟩
  · intro cfg s L now first rest hq hp hc
    rw [tick_parseSuccess_eq, hq, tickSuccess_not_new_low cfg s first rest now p₀ ps hp hc]
  · intro cfg s L now first rest hq hp hc hnone
    by_contra hg
    obtain ⟨s', he, hLast, -⟩ :=
      tick_new_low_components cfg s L now first rest hq (by rw [hp]; exact hc)
    rw [he, notifyGate_send cfg s' now (by rw [hLast]; exact hg)] at hnone
    simp at hnone

/-- The run state before the C5 witness tick: history `[50]`, so a lowest
price of 100 classifies as INCREASED. -/
def sW5 : RunState :=
  { pricesSeen := [50]
    AVAILABLE_SEATS := []
    LAST_TEXT_SENT_AT := 0
    ERROR_COUNT := 0
    ERROR := false
    STATUS_MESSAGE := "NO_SEATS" }

/-- Witness for C5 at a concrete input: an INCREASED tick returns early
with no dispatch, the status at the header only. -/
theorem claim_C5_witness :
    tick cfgW sW5 (.parseSuccess [("a", wListing)] 0) =
      ({ sW5 with AVAILABLE_SEATS := [wListing], ERROR := false, ERROR_COUNT := 0,
                  pricesSeen := sW5.pricesSeen ++ [calculateTotalPrice wListing],
                  STATUS_MESSAGE := headerMsg cfgW },
       .completed none) :=
  (claim_C5_trend_classification 50 [] (calculateTotalPrice wListing)).2.1 cfgW sW5
    [("a", wListing)] 0 wListing [] wQualifying rfl (by rw [wPrice]; decide)

end Gametime

namespace Gametime

/-- C10, amended.  On a NEW_LOW tick with qualifying listings and a
non-empty prior history the status message is exactly the header, the
"new lowest price" callout, and one formatted line per qualifying listing;
on the bootstrap NEW_LOW tick (empty prior history) the callout is
omitted — the message is the header plus the per-listing lines only. -/
theorem claim_C10_amended_status_message (cfg : Config) (s : RunState)
    (L : List (String × Listing)) (now : ℤ) (first : Listing) (rest : List Listing)
    (hq : qualifying cfg L = first :: rest) :
    (∀ (p₀ : ℚ) (ps : List ℚ), s.pricesSeen = p₀ :: ps →
      classify (p₀ :: ps) (calculateTotalPrice first) = .NEW_LOW →
      (tick cfg s (.parseSuccess L now)).1.STATUS_MESSAGE =
        headerMsg cfg ++ newLowCallout cfg (calculateTotalPrice first) ++
          readoutStr cfg (first :: rest)) ∧
    (s.pricesSeen = [] →
      (tick cfg s (.parseSuccess L now)).1.STATUS_MESSAGE =
        headerMsg cfg ++ readoutStr cfg (first :: rest)) := by
  constructor
  · intro p₀ ps hp hc
    rw [tick_parseSuccess_eq, hq,
      tickSuccess_new_low cfg s first rest now p₀ ps hp hc, notifyGate_STATUS]
  · intro hp
    rw [tick_parseSuccess_eq, hq,
      tickSuccess_bootstrap cfg s first rest now hp, notifyGate_STATUS]

set_option maxRecDepth 100000 in
/-- C10, counterexample to the claim as stated: the very first
qualifying tick classifies as NEW_LOW, yet its status message contains no
"new lowest price" callout — the callout is only built on the non-bootstrap
branch. -/
theorem claim_C10_counterexample :
    classify initialState.pricesSeen (calculateTotalPrice wListing) = .NEW_LOW ∧
    qualifying cfgW [("a", wListing)] = [wListing] ∧
    ¬ ("New lowest price".toList <:+:
        (tick cfgW initialState
            (.parseSuccess [("a", wListing)] 1000000000)).1.STATUS_MESSAGE.toList) := by
  refine ⟨rfl, wQualifying, ?_⟩
  have hs : (tick cfgW initialState
      (.parseSuccess [("a", wListing)] 1000000000)).1.STATUS_MESSAGE =
      headerMsg cfgW ++ readoutStr cfgW [wListing] := by
    rw [tick_parseSuccess_eq, wQualifying,
      tickSuccess_bootstrap cfgW initialState wListing [] 1000000000 rfl,
      notifyGate_STATUS]
  rw [hs]
  decide

/-- The run state before the C10 witness tick: history `[200]`, so the
lowest price 100 is a (non-bootstrap) new all-time low. -/
def sW10 : RunState :=
  { pricesSeen := [200]
    AVAILABLE_SEATS := []
    LAST_TEXT_SENT_AT := 0
    ERROR_COUNT := 0
    ERROR := false
    STATUS_MESSAGE := "NO_SEATS" }

/-- Witness for the amended C10 at a concrete input: a non-bootstrap
NEW_LOW tick has as status message the header, callout, and listing
lines. -/
theorem claim_C10_witness :
    (tick cfgW sW10 (.parseSuccess [("a", wListing)] 0)).1.STATUS_MESSAGE =
      headerMsg cfgW ++ newLowCallout cfgW (calculateTotalPrice wListing) ++
        readoutStr cfgW [wListing] :=
  (claim_C10_amended_status_message cfgW sW10 [("a", wListing)] 0 wListing []
      wQualifying).1 200 [] rfl (by rw [wPrice]; decide)

end Gametime

namespace Gametime

/-- The state after a first successful tick with one qualifying listing at
t = 1000000000 (the gate is open, so the text is sent and the timestamp
recorded). -/
def s1W : RunState :=
  { pricesSeen := [calculateTotalPrice wListing]
    AVAILABLE_SEATS := [wListing]
    LAST_TEXT_SENT_AT := 1000000000
    ERROR_COUNT := 0
    ERROR := false
    STATUS_MESSAGE := headerMsg cfgW ++ readoutStr cfgW [wListing] }

theorem s1W_eq :
    (tick cfgW initialState (.parseSuccess [("a", wListing)] 1000000000)).1 = s1W := by
  rw [tick_parseSuccess_eq, wQualifying,
    tickSuccess_bootstrap cfgW initialState wListing [] 1000000000 rfl,
    notifyGate_send cfgW _ 1000000000 (by decide)]
  rfl

set_option maxRecDepth 100000 in
/-- C2, a code bug: the error-hysteresis behaviour the claim describes is
unreachable in the code.  With the source configuration
(`MIN_ERROR_COUNT = 4`), after one good tick (whose status is a seats
summary, not `"NO_SEATS"`) three consecutive validation failures leave the
accessor returning `"NO_SEATS"` — the reset at the top of `check`, not the
last good status — and the counter at 0; a fourth consecutive failure
still leaves the counter at 0, the error flag false, and the accessor at
`"NO_SEATS"`, never `"ERROR"`: `safeParse` failures return without
incrementing, so the threshold can never be reached. -/
theorem claim_C2_error_state_unreachable :
    cfgW.MIN_ERROR_COUNT = 4 ∧
    getStatusMessage s1W ≠ "NO_SEATS" ∧
    getStatusMessage (run cfgW initialState
        [.parseSuccess [("a", wListing)] 1000000000, .parseFailure, .parseFailure,
          .parseFailure]) = "NO_SEATS" ∧
    (run cfgW initialState
        [.parseSuccess [("a", wListing)] 1000000000, .parseFailure, .parseFailure,
          .parseFailure]).ERROR_COUNT = 0 ∧
    getStatusMessage (run cfgW initialState
        [.parseSuccess [("a", wListing)] 1000000000, .parseFailure, .parseFailure,
          .parseFailure, .parseFailure]) = "NO_SEATS" ∧
    (run cfgW initialState
        [.parseSuccess [("a", wListing)] 1000000000, .parseFailure, .parseFailure,
          .parseFailure, .parseFailure]).ERROR_COUNT = 0 ∧
    (run cfgW initialState
        [.parseSuccess [("a", wListing)] 1000000000, .parseFailure, .parseFailure,
          .parseFailure, .parseFailure]).ERROR = false := by
  have h3 : run cfgW initialState
      [.parseSuccess [("a", wListing)] 1000000000, .parseFailure, .parseFailure,
        .parseFailure] =
      { s1W with AVAILABLE_SEATS := [], STATUS_MESSAGE := "NO_SEATS" } := by
    simp only [run, List.foldl]
    rw [s1W_eq]
    rfl
  have h4 : run cfgW initialState
      [.parseSuccess [("a", wListing)] 1000000000, .parseFailure, .parseFailure,
        .parseFailure, .parseFailure] =
      { s1W with AVAILABLE_SEATS := [], STATUS_MESSAGE := "NO_SEATS" } := by
    simp only [run, List.foldl]
    rw [s1W_eq]
    rfl
  refine ⟨rfl, by decide, ?_, ?_, ?_, ?_, ?_⟩
  · rw [h3]
    rfl
  · rw [h3]
    rfl
  · rw [h4]
    rfl
  · rw [h4]
    rfl
  · rw [h4]
    rfl

end Gametime
